import Mathlib

/-!
Verification of `imsearchtools/process/image_processor.py`.

Shallow embedding: the processor's pure logic (filename derivation, the
filter bounds, and the existence-check-then-write orchestration) is
translated into executable Lean definitions; the external collaborators
(filesystem, image decoding) are modelled by explicit state (`FS`) and an
event trace (`ProcEvent`).  Python strings become `String`, Python ints
(all non-negative here: pixel dimensions and byte counts) become `Nat`.
-/

namespace ImSearchTools

/-- `filter` settings group of `ImageProcessorSettings.__init__`. -/
structure FilterSettings where
  min_width : Nat
  min_height : Nat
  max_width : Nat
  max_height : Nat
  max_size_bytes : Nat
deriving DecidableEq, Repr

/-- `conversion` settings group of `ImageProcessorSettings.__init__`. -/
structure ConversionSettings where
  format : String
  suffix : String
deriving DecidableEq, Repr

/-- `thumbnail` settings group of `ImageProcessorSettings.__init__`. -/
structure ThumbnailSettings where
  format : String
  suffix : String
  width : Nat
  height : Nat
  pad_to_size : Bool
deriving DecidableEq, Repr

/-- The three settings groups held by `ImageProcessorSettings`. -/
structure ImageProcessorSettings where
  filter : FilterSettings
  conversion : ConversionSettings
  thumbnail : ThumbnailSettings
deriving DecidableEq, Repr

/-- The default values assigned in `ImageProcessorSettings.__init__`. -/
def defaultSettings : ImageProcessorSettings where
  filter := ⟨1, 1, 10000, 10000, 2 * 4 * 1024 * 1024⟩
  conversion := ⟨"jpg", "-clean"⟩
  thumbnail := ⟨"jpg", "-thumb", 90, 90, true⟩

/-- The image header that `PIL.Image.open` reads lazily: `im.size` gives
`(width, height)` and `im.mode` is the color-mode string (for example
`"RGB"`), whose length is the number of bytes per pixel. -/
structure ImageHeader where
  width : Nat
  height : Nat
  mode : String
deriving DecidableEq, Repr

/-- Index of the last occurrence of `c` in `cs` (Python `str.rfind`,
with `none` for "not found"). -/
def lastIndexOfAux (cs : List Char) (c : Char) (i : Nat) (acc : Option Nat) : Option Nat :=
  match cs with
  | [] => acc
  | x :: xs => lastIndexOfAux xs c (i + 1) (if x = c then some i else acc)

/-- Index of the last occurrence of `c` in `cs`, or `none`. -/
def lastIndexOf (cs : List Char) (c : Char) : Option Nat :=
  lastIndexOfAux cs c 0 none

/-- `os.path.splitext` for posix paths: split off the extension at the last
dot, provided that dot comes after the last path separator and the
characters between the separator and the dot are not all dots (so a
leading-dot filename such as `".bashrc"` is not split). -/
def splitext (p : String) : String × String :=
  let cs := p.data
  let sepIdx : Int := match lastIndexOf cs '/' with
    | some i => Int.ofNat i
    | none => -1
  match lastIndexOf cs '.' with
  | none => (p, "")
  | some d =>
    if sepIdx < Int.ofNat d then
      let start := (sepIdx + 1).toNat
      let between := (cs.drop start).take (d - start)
      if between.any (fun c => c ≠ '.') then
        (String.mk (cs.take d), String.mk (cs.drop d))
      else
        (p, "")
    else
      (p, "")

/-- Record passed to `_filename_from_urldata`: at minimum an `image_id`
and a source `url`. -/
structure URLData where
  image_id : String
  url : String
deriving DecidableEq, Repr

/-- `ImageProcessor._filename_from_urldata`: the stdlib URL parser is an
external collaborator, abstracted as the function `urlpath` giving the
path component of a URL.  The local filename is the image id plus the
extension of the URL path. -/
def filename_from_urldata (urlpath : String → String) (urldata : URLData) : String :=
  urldata.image_id ++ (splitext (urlpath urldata.url)).2

/-- Python `str.lower()`, character-wise (the format strings here are
ASCII). -/
def str_lower (s : String) : String :=
  ⟨s.data.map Char.toLower⟩

/-- `ImageProcessor._clean_filename_from_filename`. -/
def clean_filename_from_filename (opts : ImageProcessorSettings) (fn : String) : String :=
  (splitext fn).1 ++ opts.conversion.suffix ++ "." ++ str_lower opts.conversion.format

/-- `ImageProcessor._thumb_filename_from_filename`. -/
def thumb_filename_from_filename (opts : ImageProcessorSettings) (fn : String) : String :=
  (splitext fn).1 ++ opts.thumbnail.suffix ++ "-" ++
    toString opts.thumbnail.width ++ "x" ++ toString opts.thumbnail.height ++ "." ++
    str_lower opts.thumbnail.format

/-- The in-memory size estimate of `_filter_image`:
`nbytes = w * h * len(im.mode)`. -/
def estimated_nbytes (hdr : ImageHeader) : Nat :=
  hdr.width * hdr.height * hdr.mode.length

/-- `ImageProcessor._filter_image`: the five bound checks in source order;
`Except.error r` models `raise FilterException, r`. -/
def filter_image (f : FilterSettings) (hdr : ImageHeader) : Except String Unit :=
  let w := hdr.width
  let h := hdr.height
  let nbytes := estimated_nbytes hdr
  if w < f.min_width then Except.error "w < min_width"
  else if h < f.min_height then Except.error "h < min_height"
  else if w > f.max_width then Except.error "w > max_width"
  else if h > f.max_height then Except.error "h > max_height"
  else if nbytes > f.max_size_bytes then Except.error "nbytes > max_size_bytes"
  else Except.ok ()

/-- The filesystem state seen by `imutils.image_exists` / mutated by
`imutils.save_image`: the set of existing files. -/
structure FS where
  files : List String
deriving DecidableEq, Repr

/-- `imutils.image_exists fn`. -/
def FS.image_exists (fs : FS) (fn : String) : Bool :=
  fs.files.contains fn

/-- The filesystem after `imutils.save_image fn im`. -/
def FS.save_image (fs : FS) (fn : String) : FS :=
  ⟨fn :: fs.files⟩

/-- Calls `process_image` makes on the imaging collaborator, in order:
`imutils.save_image` on a path, and `imutils.create_thumbnail` with a
requested box size. -/
inductive ProcEvent where
  | save_image : String → ProcEvent
  | create_thumbnail : Nat → Nat → ProcEvent
deriving DecidableEq, Repr

instance {ε α : Type} [DecidableEq ε] [DecidableEq α] : DecidableEq (Except ε α) := fun x y =>
  match x, y with
  | Except.error a, Except.error b =>
    if h : a = b then Decidable.isTrue (congrArg Except.error h)
    else Decidable.isFalse (fun he => h (Except.error.inj he))
  | Except.ok a, Except.ok b =>
    if h : a = b then Decidable.isTrue (congrArg Except.ok h)
    else Decidable.isFalse (fun he => h (Except.ok.inj he))
  | Except.error _, Except.ok _ => Decidable.isFalse (fun he => Except.noConfusion he)
  | Except.ok _, Except.error _ => Decidable.isFalse (fun he => Except.noConfusion he)

/-- Outcome of one `process_image` call: the returned pair of paths (or
the `FilterException` reason), the collaborator calls made, and the
resulting filesystem. -/
structure ProcOutcome where
  result : Except String (String × String)
  events : List ProcEvent
  fs : FS
deriving DecidableEq, Repr

/-- `ImageProcessor.process_image`: filter first (a raise aborts with no
writes), then write the converted image unless it exists, then write the
thumbnail (requesting the configured box from `create_thumbnail`) unless
it exists, and return both paths. -/
def process_image (opts : ImageProcessorSettings) (fs : FS) (fn : String)
    (hdr : ImageHeader) : ProcOutcome :=
  match filter_image opts.filter hdr with
  | Except.error e => ⟨Except.error e, [], fs⟩
  | Except.ok _ =>
    let clean_fn := clean_filename_from_filename opts fn
    let p1 : List ProcEvent × FS :=
      if fs.image_exists clean_fn then ([], fs)
      else ([ProcEvent.save_image clean_fn], fs.save_image clean_fn)
    let thumb_fn := thumb_filename_from_filename opts fn
    let p2 : List ProcEvent × FS :=
      if p1.2.image_exists thumb_fn then ([], p1.2)
      else ([ProcEvent.create_thumbnail opts.thumbnail.width opts.thumbnail.height,
             ProcEvent.save_image thumb_fn], (p1.2).save_image thumb_fn)
    ⟨Except.ok (clean_fn, thumb_fn), p1.1 ++ p2.1, p2.2⟩

/-- Modelled from the spec: `imutils.create_thumbnail` belongs to this
repository but is not under src/.  The spec says the thumbnail is sized
to the configured box, "with padding (letterboxing to exact box
dimensions preserving aspect ratio) applied if `pad_to_size` is set,
otherwise free aspect scaling".  This gives the output dimensions for a
source of size `srcW × srcH` and a requested box `boxW × boxH`. -/
def create_thumbnail_size (srcW srcH boxW boxH : Nat) (pad : Bool) : Nat × Nat :=
  if pad then (boxW, boxH)
  else if srcH * boxW ≤ srcW * boxH then (boxW, srcH * boxW / srcW)
  else (srcW * boxH / srcH, boxH)

/-- The reason strings `_filter_image` can raise with, in check order. -/
def filter_reasons : List String :=
  ["w < min_width", "h < min_height", "w > max_width", "h > max_height",
   "nbytes > max_size_bytes"]

/-- The labels of the bounds violated by `hdr`, in the fixed check order
of `_filter_image`. -/
def violated_bounds (f : FilterSettings) (hdr : ImageHeader) : List String :=
  (if hdr.width < f.min_width then ["w < min_width"] else []) ++
  (if hdr.height < f.min_height then ["h < min_height"] else []) ++
  (if hdr.width > f.max_width then ["w > max_width"] else []) ++
  (if hdr.height > f.max_height then ["h > max_height"] else []) ++
  (if estimated_nbytes hdr > f.max_size_bytes then ["nbytes > max_size_bytes"] else [])

/-! Helper lemmas shared by the claim theorems. -/

theorem FS.image_exists_save_self (fs : FS) (a : String) :
    (fs.save_image a).image_exists a = true := by
  simp [FS.image_exists, FS.save_image]

theorem FS.image_exists_save_of (fs : FS) (a b : String)
    (h : fs.image_exists a = true) : (fs.save_image b).image_exists a = true := by
  simp [FS.image_exists, FS.save_image] at h ⊢
  exact Or.inr h

theorem process_image_of_error (opts : ImageProcessorSettings) (fs : FS) (fn : String)
    (hdr : ImageHeader) (e : String) (h : filter_image opts.filter hdr = Except.error e) :
    process_image opts fs fn hdr = ⟨Except.error e, [], fs⟩ := by
  unfold process_image
  rw [h]

theorem process_image_of_ok (opts : ImageProcessorSettings) (fs : FS) (fn : String)
    (hdr : ImageHeader) (h : filter_image opts.filter hdr = Except.ok ()) :
    process_image opts fs fn hdr =
      (let clean_fn := clean_filename_from_filename opts fn
      let p1 : List ProcEvent × FS :=
        if fs.image_exists clean_fn then ([], fs)
        else ([ProcEvent.save_image clean_fn], fs.save_image clean_fn)
      let thumb_fn := thumb_filename_from_filename opts fn
      let p2 : List ProcEvent × FS :=
        if p1.2.image_exists thumb_fn then ([], p1.2)
        else ([ProcEvent.create_thumbnail opts.thumbnail.width opts.thumbnail.height,
               ProcEvent.save_image thumb_fn], (p1.2).save_image thumb_fn)
      ⟨Except.ok (clean_fn, thumb_fn), p1.1 ++ p2.1, p2.2⟩) := by
  unfold process_image
  rw [h]

theorem process_image_ok_paths (opts : ImageProcessorSettings) (fs : FS) (fn : String)
    (hdr : ImageHeader) (c t : String)
    (h : (process_image opts fs fn hdr).result = Except.ok (c, t)) :
    c = clean_filename_from_filename opts fn ∧ t = thumb_filename_from_filename opts fn := by
  cases hf : filter_image opts.filter hdr with
  | error e =>
    rw [process_image_of_error opts fs fn hdr e hf] at h
    simp at h
  | ok u =>
    cases u
    rw [process_image_of_ok opts fs fn hdr hf] at h
    simp at h
    exact ⟨h.1.symm, h.2.symm⟩

theorem process_image_error_no_write (opts : ImageProcessorSettings) (fs : FS) (fn : String)
    (hdr : ImageHeader) (e : String)
    (h : (process_image opts fs fn hdr).result = Except.error e) :
    (process_image opts fs fn hdr).events = [] ∧ (process_image opts fs fn hdr).fs = fs := by
  cases hf : filter_image opts.filter hdr with
  | error e2 =>
    rw [process_image_of_error opts fs fn hdr e2 hf]
    exact ⟨rfl, rfl⟩
  | ok u =>
    cases u
    rw [process_image_of_ok opts fs fn hdr hf] at h
    simp at h

/-! The claim theorems. -/

/-- C1: an image whose header width is strictly below the configured
`min_width` makes `process_image` fail with reason `"w < min_width"`, and
whenever the filter raises, no save of the converted image or the
thumbnail has occurred: the event trace is empty and the filesystem is
unchanged. -/
theorem C1_min_width_rejection_no_write (opts : ImageProcessorSettings) (fs : FS)
    (fn : String) (hdr : ImageHeader) :
    (hdr.width < opts.filter.min_width →
      (process_image opts fs fn hdr).result = Except.error "w < min_width") ∧
    (∀ e, (process_image opts fs fn hdr).result = Except.error e →
      (process_image opts fs fn hdr).events = [] ∧
      (process_image opts fs fn hdr).fs = fs) := by
  constructor
  · intro hw
    have hf : filter_image opts.filter hdr = Except.error "w < min_width" := by
      simp [filter_image, hw]
    rw [process_image_of_error opts fs fn hdr _ hf]
  · intro e he
    exact process_image_error_no_write opts fs fn hdr e he

/-- Witness for C1 at a concrete input: width 0 with the default bounds. -/
theorem C1_witness :
    (process_image defaultSettings ⟨[]⟩ "abc.png" ⟨0, 50, "RGB"⟩).result =
        Except.error "w < min_width" ∧
    (process_image defaultSettings ⟨[]⟩ "abc.png" ⟨0, 50, "RGB"⟩).events = [] ∧
    (process_image defaultSettings ⟨[]⟩ "abc.png" ⟨0, 50, "RGB"⟩).fs = ⟨[]⟩ := by
  have h := C1_min_width_rejection_no_write defaultSettings ⟨[]⟩ "abc.png" ⟨0, 50, "RGB"⟩
  have h1 := h.1 (by decide)
  exact ⟨h1, h.2 "w < min_width" h1⟩

/-- C3: `_filter_image` checks the five bounds in the fixed order
min_width, min_height, max_width, max_height, max_size_bytes; the raised
reason is the label of the first violated bound, and every reason it can
raise is one of the five fixed strings. -/
theorem C3_first_violated_bound_reason (f : FilterSettings) (hdr : ImageHeader) (r : String) :
    (filter_image f hdr = Except.error r ↔ (violated_bounds f hdr).head? = some r) ∧
    ((violated_bounds f hdr).head? = some r → r ∈ filter_reasons) := by
  by_cases h1 : hdr.width < f.min_width <;>
  by_cases h2 : hdr.height < f.min_height <;>
  by_cases h3 : hdr.width > f.max_width <;>
  by_cases h4 : hdr.height > f.max_height <;>
  by_cases h5 : estimated_nbytes hdr > f.max_size_bytes <;>
  simp [filter_image, violated_bounds, filter_reasons, h1, h2, h3, h4, h5, eq_comm] <;>
  tauto

/-- Witness for C3 at a concrete input where two bounds are violated:
the reported reason is the first in check order. -/
theorem C3_witness :
    filter_image ⟨10, 10, 5, 5, 1000000⟩ ⟨20, 2, "RGB"⟩ = Except.error "h < min_height" ∧
    "h < min_height" ∈ filter_reasons := by
  have h := C3_first_violated_bound_reason ⟨10, 10, 5, 5, 1000000⟩ ⟨20, 2, "RGB"⟩ "h < min_height"
  exact ⟨h.1.mpr (by decide), h.2 (by decide)⟩

/-- C5: the estimated decoded size is exactly `width * height *
bytes-per-pixel`, and a 2000 x 2000 image in a 3-byte-per-pixel mode
(12,000,000 bytes) is rejected under `max_size_bytes = 8388608` with
reason `"nbytes > max_size_bytes"` when all dimension bounds pass. -/
theorem C5_nbytes_estimate :
    (∀ hdr : ImageHeader, estimated_nbytes hdr = hdr.width * hdr.height * hdr.mode.length) ∧
    estimated_nbytes ⟨2000, 2000, "RGB"⟩ = 12000000 ∧
    filter_image ⟨1, 1, 10000, 10000, 8388608⟩ ⟨2000, 2000, "RGB"⟩ =
      Except.error "nbytes > max_size_bytes" :=
  ⟨fun _ => rfl, by decide, by decide⟩

/-- C8: the maximum bounds are strict: a width exactly equal to
`max_width` passes the filter when the other bounds are satisfied. -/
theorem C8_max_width_boundary (f : FilterSettings) (hdr : ImageHeader)
    (hw : hdr.width = f.max_width)
    (hminw : f.min_width ≤ hdr.width)
    (hminh : f.min_height ≤ hdr.height)
    (hmaxh : hdr.height ≤ f.max_height)
    (hbytes : estimated_nbytes hdr ≤ f.max_size_bytes) :
    filter_image f hdr = Except.ok () := by
  have h1 : ¬ (hdr.width < f.min_width) := by omega
  have h2 : ¬ (hdr.height < f.min_height) := by omega
  have h3 : ¬ (hdr.width > f.max_width) := by omega
  have h4 : ¬ (hdr.height > f.max_height) := by omega
  have h5 : ¬ (estimated_nbytes hdr > f.max_size_bytes) := by omega
  simp [filter_image, h1, h2, h3, h4, h5]

/-- Witness for C8: width exactly 10000 = default `max_width` passes. -/
theorem C8_witness :
    filter_image defaultSettings.filter ⟨10000, 100, "RGB"⟩ = Except.ok () :=
  C8_max_width_boundary defaultSettings.filter ⟨10000, 100, "RGB"⟩
    (by decide) (by decide) (by decide) (by decide) (by decide)

/-- C6: the two paths returned by `process_image` follow the naming
scheme: the source filename stem, then the configured suffix and
lower-cased format extension; the thumbnail name additionally embeds the
configured `WxH` dimension tag before the extension. -/
theorem C6_naming_scheme (opts : ImageProcessorSettings) (fs : FS) (fn : String)
    (hdr : ImageHeader) (c t : String)
    (h : (process_image opts fs fn hdr).result = Except.ok (c, t)) :
    c = (splitext fn).1 ++ opts.conversion.suffix ++ "." ++
        str_lower opts.conversion.format ∧
    t = (splitext fn).1 ++ opts.thumbnail.suffix ++ "-" ++
        toString opts.thumbnail.width ++ "x" ++ toString opts.thumbnail.height ++ "." ++
        str_lower opts.thumbnail.format :=
  process_image_ok_paths opts fs fn hdr c t h

/-- Witness for C6 at a concrete run with the default settings. -/
theorem C6_witness :
    "abc-clean.jpg" = (splitext "abc.png").1 ++ defaultSettings.conversion.suffix ++
        "." ++ str_lower defaultSettings.conversion.format ∧
    "abc-thumb-90x90.jpg" = (splitext "abc.png").1 ++ defaultSettings.thumbnail.suffix ++
        "-" ++ toString defaultSettings.thumbnail.width ++ "x" ++
        toString defaultSettings.thumbnail.height ++ "." ++
        str_lower defaultSettings.thumbnail.format :=
  C6_naming_scheme defaultSettings ⟨[]⟩ "abc.png" ⟨100, 50, "RGB"⟩
    "abc-clean.jpg" "abc-thumb-90x90.jpg" (by decide)

/-- C7: filename derivation is deterministic and content-independent:
two successful runs with the same identifier, URL (through the same URL
parser) and settings return equal path pairs, whatever the filesystem
state and image header (the derivation reads no file data). -/
theorem C7_filename_content_independence (opts : ImageProcessorSettings)
    (urlpath : String → String) (urldata : URLData)
    (fs1 fs2 : FS) (hdr1 hdr2 : ImageHeader) (c1 t1 c2 t2 : String)
    (h1 : (process_image opts fs1 (filename_from_urldata urlpath urldata) hdr1).result =
      Except.ok (c1, t1))
    (h2 : (process_image opts fs2 (filename_from_urldata urlpath urldata) hdr2).result =
      Except.ok (c2, t2)) :
    c1 = c2 ∧ t1 = t2 := by
  have p1 := process_image_ok_paths opts fs1 _ hdr1 c1 t1 h1
  have p2 := process_image_ok_paths opts fs2 _ hdr2 c2 t2 h2
  exact ⟨p1.1.trans p2.1.symm, p1.2.trans p2.2.symm⟩

/-- Witness for C7: two runs on different filesystems and different image
contents return the same paths. -/
theorem C7_witness :
    ("abc-clean.jpg" : String) = "abc-clean.jpg" ∧
    ("abc-thumb-90x90.jpg" : String) = "abc-thumb-90x90.jpg" :=
  C7_filename_content_independence defaultSettings (fun _ => "/y.png")
    ⟨"abc", "http://x/y.png"⟩ ⟨[]⟩ ⟨["other.jpg"]⟩ ⟨100, 50, "RGB"⟩ ⟨30, 30, "L"⟩
    "abc-clean.jpg" "abc-thumb-90x90.jpg" "abc-clean.jpg" "abc-thumb-90x90.jpg"
    (by decide) (by decide)

/-- C9: both derived filenames end in a dot followed by the lower-cased
format string, and concretely an upper-case conversion format "JPG"
yields the extension ".jpg". -/
theorem C9_lowercase_extension (opts : ImageProcessorSettings) (fn : String) :
    (∃ s, clean_filename_from_filename opts fn =
      s ++ ("." ++ str_lower opts.conversion.format)) ∧
    (∃ s, thumb_filename_from_filename opts fn =
      s ++ ("." ++ str_lower opts.thumbnail.format)) ∧
    clean_filename_from_filename
      ⟨defaultSettings.filter, ⟨"JPG", "-clean"⟩, defaultSettings.thumbnail⟩
      "abc.png" = "abc-clean.jpg" := by
  refine ⟨⟨(splitext fn).1 ++ opts.conversion.suffix, ?_⟩,
    ⟨(splitext fn).1 ++ opts.thumbnail.suffix ++ "-" ++
      toString opts.thumbnail.width ++ "x" ++ toString opts.thumbnail.height, ?_⟩,
    by decide⟩
  · simp [clean_filename_from_filename, String.append_assoc]
  · simp [thumb_filename_from_filename, String.append_assoc]

/-- C10: `process_image` never reads `pad_to_size`: two settings bundles
differing only in that flag give identical outcomes (same returned
paths, same collaborator call sequence, same filesystem). -/
theorem C10_pad_to_size_never_read (opts : ImageProcessorSettings) (b : Bool)
    (fs : FS) (fn : String) (hdr : ImageHeader) :
    process_image { opts with thumbnail := { opts.thumbnail with pad_to_size := b } }
        fs fn hdr =
      process_image opts fs fn hdr := rfl

/-- C2: with `pad_to_size` set, the thumbnail has output dimensions
exactly the configured box whatever the source dimensions, and every
thumbnail request `process_image` makes uses exactly the configured box
`(thumbnail.width, thumbnail.height)`. -/
theorem C2_pad_to_size_exact_box (opts : ImageProcessorSettings) (fs : FS) (fn : String)
    (hdr : ImageHeader)
    (hpad : opts.thumbnail.pad_to_size = true)
    (hacc : filter_image opts.filter hdr = Except.ok ()) :
    (∀ srcW srcH : Nat,
      create_thumbnail_size srcW srcH opts.thumbnail.width opts.thumbnail.height
        opts.thumbnail.pad_to_size = (opts.thumbnail.width, opts.thumbnail.height)) ∧
    (∀ bw bh : Nat,
      ProcEvent.create_thumbnail bw bh ∈ (process_image opts fs fn hdr).events →
        bw = opts.thumbnail.width ∧ bh = opts.thumbnail.height) := by
  constructor
  · intro srcW srcH
    simp [create_thumbnail_size, hpad]
  · intro bw bh hmem
    rw [process_image_of_ok opts fs fn hdr hacc] at hmem
    simp only [] at hmem
    split at hmem <;> split at hmem <;> simp_all

/-- Witness for C2: a 400 x 300 source padded into the default 90 x 90
box, and the concrete thumbnail request of a run on a 100 x 50 image. -/
theorem C2_witness :
    create_thumbnail_size 400 300 90 90 true = (90, 90) ∧ (90 = 90 ∧ 90 = 90) := by
  have h := C2_pad_to_size_exact_box defaultSettings ⟨[]⟩ "abc.png" ⟨100, 50, "RGB"⟩
    rfl (by decide)
  exact ⟨h.1 400 300, h.2 90 90 (by decide)⟩

/-- C4: a second `process_image` call with the same filename and settings,
on the filesystem left by a successful first call, returns the identical
pair of paths and performs no collaborator call: both existence checks
succeed, so both saves are skipped and the filesystem is unchanged. -/
theorem C4_second_call_skips_writes (opts : ImageProcessorSettings) (fs : FS)
    (fn : String) (hdr : ImageHeader) (c t : String) (evs : List ProcEvent) (fs2 : FS)
    (h : process_image opts fs fn hdr = ⟨Except.ok (c, t), evs, fs2⟩) :
    process_image opts fs2 fn hdr = ⟨Except.ok (c, t), [], fs2⟩ := by
  cases hf : filter_image opts.filter hdr with
  | error e =>
    rw [process_image_of_error opts fs fn hdr e hf] at h
    exact absurd (congrArg ProcOutcome.result h) (by simp)
  | ok u =>
    cases u
    rw [process_image_of_ok opts fs fn hdr hf] at h
    rw [process_image_of_ok opts fs2 fn hdr hf]
    simp only [] at h ⊢
    split at h <;> split at h <;>
      (simp only [ProcOutcome.mk.injEq, Except.ok.injEq, Prod.mk.injEq] at h
       obtain ⟨⟨hc, ht⟩, hev, hfs⟩ := h
       subst hc; subst ht; subst hfs) <;>
      simp_all [FS.image_exists_save_self, FS.image_exists_save_of]

/-- Witness for C4: the second call after a concrete first run on an
empty filesystem is a no-op write returning the same paths. -/
theorem C4_witness :
    process_image defaultSettings ⟨["abc-thumb-90x90.jpg", "abc-clean.jpg"]⟩ "abc.png"
        ⟨100, 50, "RGB"⟩ =
      ⟨Except.ok ("abc-clean.jpg", "abc-thumb-90x90.jpg"), [],
        ⟨["abc-thumb-90x90.jpg", "abc-clean.jpg"]⟩⟩ :=
  C4_second_call_skips_writes defaultSettings ⟨[]⟩ "abc.png" ⟨100, 50, "RGB"⟩
    "abc-clean.jpg" "abc-thumb-90x90.jpg"
    [ProcEvent.save_image "abc-clean.jpg", ProcEvent.create_thumbnail 90 90,
     ProcEvent.save_image "abc-thumb-90x90.jpg"]
    ⟨["abc-thumb-90x90.jpg", "abc-clean.jpg"]⟩ (by decide)

end ImSearchTools
